import Mathlib

/-!
Verification of the spannerclosecheck analyzer core
(`pkg/analyzer/defer_only.go` together with `pkg/analyzer/analyzer.go`).

The Go analyzer walks the SSA form of every function of a compilation unit,
finds values whose type is one of the registered Cloud Spanner resource
types, and reports those that are not covered by a deferred cleanup call,
subject to two exemptions (values produced by `Single()`, iterators that are
returned) and to nolint suppression comments.

The embedding below mirrors the Go source: SSA values are identified by
numeric ids, instructions carry exactly the fields the analyzer reads
(invoke-mode method name, call-mode callee name, operand ids, result type,
position), and the file/comment metadata of `analysis.Pass` is a record of
lookup functions plus the parsed comment groups.
-/

/-- Token position, mirroring `token.Pos`. -/
abbrev Pos := Nat

/-- SSA value identifier (stands for the identity of an `ssa.Value`). -/
abbrev ValueId := Nat

/-- A Go type as far as the analyzer inspects it: a named type (identified
by the nominal identity of the `*types.Named`), a pointer to a type, or
anything else. -/
inductive GoType where
  | named (n : Nat)
  | pointer (t : GoType)
  | basic (s : String)
deriving DecidableEq

/-- The fields of `ssa.CallCommon` read by the analyzer: `Method.Name()`
when the call is in invoke mode (`Method != nil`), `Value.Name()` when the
callee/receiver operand is present (`Value != nil`), and the ids of the SSA
values appearing as operands of the call (receiver and arguments). -/
structure CallCommon where
  methodName : Option String
  valueName : Option String
  operands : List ValueId
deriving DecidableEq

/-- The SSA instructions distinguished by the analyzer.  `call`, `extract`
and `opaqueVal` are instructions that are also values (`instr.(ssa.Value)`
succeeds); `deferC`, `returnInstr` and `opaqueInstr` are not values.
For `extract`, the `tuple` field carries the id of the tuple value together
with the position of that value (`extract.Tuple` and `extract.Tuple.Pos()`);
`none` models a nil tuple pointer. -/
inductive Instr where
  | call (id : ValueId) (pos : Pos) (ty : GoType) (common : CallCommon)
  | extract (id : ValueId) (pos : Pos) (ty : GoType) (tuple : Option (ValueId × Pos))
  | opaqueVal (id : ValueId) (pos : Pos) (ty : GoType) (operands : List ValueId)
  | deferC (common : CallCommon)
  | returnInstr (results : List ValueId)
  | opaqueInstr (operands : List ValueId)
deriving DecidableEq

/-- An `ssa.Function`: its position (`fn.Pos()`) and its basic blocks, each
a list of instructions. -/
structure Function where
  pos : Pos
  blocks : List (List Instr)
deriving DecidableEq

/-- Operand value ids of an instruction, used to compute `Referrers()`. -/
def Instr.operands : Instr → List ValueId
  | .call _ _ _ common => common.operands
  | .extract _ _ _ tuple =>
    match tuple with
    | some t => [t.1]
    | none => []
  | .opaqueVal _ _ _ ops => ops
  | .deferC common => common.operands
  | .returnInstr rs => rs
  | .opaqueInstr ops => ops

/-- When the instruction is an `ssa.Value`: its id, position and type. -/
def Instr.valueInfo : Instr → Option (ValueId × Pos × GoType)
  | .call id pos ty _ => some (id, pos, ty)
  | .extract id pos ty _ => some (id, pos, ty)
  | .opaqueVal id pos ty _ => some (id, pos, ty)
  | _ => none

/-- All instructions of a function, in block order. -/
def allInstrs (fn : Function) : List Instr :=
  fn.blocks.flatten

/-- Referrers of a value: every instruction of the function that has the
value among its operands (mirrors `ssa.Value.Referrers()`). -/
def referrers (fn : Function) (v : ValueId) : List Instr :=
  (allInstrs fn).filter (fun i => decide (v ∈ i.operands))

/-- Whether an instruction is a `*ssa.Defer`. -/
def isDeferB : Instr → Bool
  | .deferC _ => true
  | _ => false

/-- A comment (`ast.Comment`): the analyzer reads only its text. -/
structure Comment where
  text : String
deriving DecidableEq

/-- A comment group (`ast.CommentGroup`): its position (`cg.Pos()`, the
position of the first comment) and its comments (`cg.List`). -/
structure CommentGroup where
  pos : Pos
  list : List Comment
deriving DecidableEq

/-- A parsed file (`*ast.File`) as the analyzer reads it: its position
(`f.Pos()`) and its comment groups (`f.Comments`). -/
structure AstFile where
  pos : Pos
  comments : List CommentGroup
deriving DecidableEq

/-- The slice of `analysis.Pass` the analyzer uses: the fileset lookup
`Fset.File` (returning the identity of a `token.File`, or `none` for a nil
result), the name of a file, the line of a position within a file
(`file.Line(pos)`), and the parsed files `pass.Files`. -/
structure Pass where
  fileOf : Pos → Option Nat
  fileName : Nat → String
  lineOf : Nat → Pos → Nat
  files : List AstFile

/-- A reported diagnostic: position and message (`pass.Reportf`). -/
structure Diagnostic where
  pos : Pos
  message : String
deriving DecidableEq

/-- Whether the character list `s` begins with the character list `pat`. -/
def startsWithL : List Char → List Char → Bool
  | _, [] => true
  | [], _ :: _ => false
  | a :: as, b :: bs => a == b && startsWithL as bs

/-- Whether the character list `s` contains `pat` as a contiguous run. -/
def containsL : List Char → List Char → Bool
  | [], pat => startsWithL [] pat
  | s@(_ :: rest), pat => startsWithL s pat || containsL rest pat

/-- The Go function `strings.Contains`. -/
def strContains (s sub : String) : Bool :=
  containsL s.toList sub.toList

/-- The Go function `strings.HasSuffix`. -/
def strEndsWith (s suf : String) : Bool :=
  startsWithL s.toList.reverse suf.toList.reverse

/-- The registry of Spanner types: nominal type identity to display name
(the Go `map[*types.Named]string`). -/
abbrev Registry := List (Nat × String)

/-- A package as seen through `pkg.Pkg`: its import path and its scope,
mapping object names to the type of the object (`Scope().Lookup(name).Type()`);
an absent entry models a nil object. -/
structure SsaPackage where
  path : String
  scope : List (String × GoType)

/-- The program: `Prog.AllPackages()`. -/
structure Program where
  allPackages : List SsaPackage

/-- The `buildssa.SSA` result: the program reachable from the package and
the source functions to scan. -/
structure SSAResult where
  pkgProg : Program
  srcFuncs : List Function

/-- Result of the analyzer run: diagnostics reported through the pass and
the error returned by the `run` function (always nil in the source). -/
structure AnalyzerResult where
  diags : List Diagnostic
  err : Option String
deriving DecidableEq

/-- Go `registerType`: look the name up in the package scope; if the object
exists and its type is a named type, record it in the registry (map
insert — the most recent insertion wins on lookup). -/
def registerType (pkg : SsaPackage) (name : String) (reg : Registry) : Registry :=
  match pkg.scope.lookup name with
  | some t =>
    match t with
    | GoType.named n => (n, name) :: reg
    | _ => reg
  | none => reg

/-- Go `getSpannerType`: strip one pointer indirection, then look the named
type up in the registry; empty string when it is not a registered type. -/
def getSpannerType (t : GoType) (reg : Registry) : String :=
  let t2 :=
    match t with
    | GoType.pointer e => e
    | _ => t
  match t2 with
  | GoType.named n =>
    match reg.lookup n with
    | some name => name
    | none => ""
  | _ => ""

/-- Go `isFromSingle`: the value is a call whose invoke-mode method name is
`Single`, or whose callee value is named `Single`. -/
def isFromSingle : Instr → Bool
  | .call _ _ _ common =>
    (match common.methodName with
     | some m => m == "Single"
     | none => false) ||
    (match common.valueName with
     | some n => n == "Single"
     | none => false)
  | _ => false

/-- Go `isReturnedFromFunction`: some referrer of the value is a return
instruction whose results contain the value. -/
def isReturnedFromFunction (fn : Function) (v : ValueId) : Bool :=
  (referrers fn v).any fun ref =>
    match ref with
    | .returnInstr rs => decide (v ∈ rs)
    | _ => false

/-- Body of the referrer loop of Go `hasDeferredClose`: a defer instruction
establishes coverage at once; an invoke-mode call named `Close` or `Stop`
establishes coverage when a defer instruction sits among its own
referrers. -/
def deferCoverRef (fn : Function) : Instr → Bool
  | .deferC _ => true
  | .call cid _ _ common =>
    (match common.methodName with
     | some m => (m == "Close" || m == "Stop") && (referrers fn cid).any isDeferB
     | none => false)
  | _ => false

/-- Go `hasDeferredClose`: some referrer is a defer instruction, or some
referrer is an invoke-mode call named `Close` or `Stop` that itself has a
defer instruction among its referrers. -/
def hasDeferredClose (fn : Function) (v : ValueId) : Bool :=
  (referrers fn v).any (deferCoverRef fn)

/-- Go `hasFileLevelNolint`, inner loop over the comment groups of one
file: stop at the first group past line 10 (`break`), otherwise answer true
when a comment of the group contains a targeted or all-tools token. -/
def fileLevelScanGroups (pass : Pass) (fid : Nat) : List CommentGroup → Bool
  | [] => false
  | cg :: rest =>
    if pass.lineOf fid cg.pos > 10 then false
    else if cg.list.any (fun c =>
        strContains c.text "nolint:spannerclosecheck" ||
        strContains c.text "nolint:all") then true
    else fileLevelScanGroups pass fid rest

/-- Go `hasFileLevelNolint`: a nil file lookup yields false; otherwise scan
the comment groups of each parsed file belonging to the same token file. -/
def hasFileLevelNolint (pass : Pass) (pos : Pos) : Bool :=
  match pass.fileOf pos with
  | none => false
  | some fid =>
    pass.files.any fun f =>
      if pass.fileOf f.pos == some fid then fileLevelScanGroups pass fid f.comments
      else false

/-- Go `isGeneratedFile`: a nil file lookup yields false; otherwise the
filename suffix/marker checks, then the file-level nolint check. -/
def isGeneratedFile (pass : Pass) (pos : Pos) : Bool :=
  match pass.fileOf pos with
  | none => false
  | some fid =>
    let filename := pass.fileName fid
    strEndsWith filename ".yo.go" ||
    strEndsWith filename ".pb.go" ||
    strEndsWith filename "_gen.go" ||
    strContains filename "generated" ||
    hasFileLevelNolint pass pos

/-- The tokens recognized by the positional nolint check: the targeted
token, the all-tools token, or a bare token in a text with no colon. -/
def nolintText (t : String) : Bool :=
  strContains t "nolint:spannerclosecheck" ||
  strContains t "nolint:all" ||
  (strContains t "nolint" && !(strContains t ":"))

/-- Go `hasNolintDirective`: a nil file lookup yields false; otherwise a
comment group on the same line as the position, or the line before, whose
text carries a recognized token, suppresses the position. -/
def hasNolintDirective (pass : Pass) (pos : Pos) : Bool :=
  match pass.fileOf pos with
  | none => false
  | some fid =>
    let line := pass.lineOf fid pos
    pass.files.any fun f =>
      (pass.fileOf f.pos == some fid) &&
      f.comments.any fun cg =>
        let commentLine := pass.lineOf fid cg.pos
        (commentLine == line || commentLine == line - 1) &&
        cg.list.any fun c => nolintText c.text

/-- Reported position: for an extract with a non-nil tuple, the tuple
position of that call; otherwise the own position of the value (the `pos` mutation in
`checkFunc`). -/
def underlyingPos (instr : Instr) (fallback : Pos) : Pos :=
  match instr with
  | .extract _ _ _ (some (_, tpos)) => tpos
  | _ => fallback

/-- Body of the instruction loop of Go `checkFunc`: for an instruction that
is a value of a registered Spanner type, apply the `Single()` exemption,
the returned-iterator exemption, the deferred-close coverage check and the
nolint filter, and report `<name>.Close() must be deferred` at the
reported position when all of them fail to excuse the value. -/
def checkInstr (pass : Pass) (fn : Function) (reg : Registry) (instr : Instr) :
    List Diagnostic :=
  match instr.valueInfo with
  | none => []
  | some (vid, vpos, ty) =>
    let typeName := getSpannerType ty reg
    if typeName == "" then []
    else if typeName == "ReadOnlyTransaction" && isFromSingle instr then []
    else if typeName == "RowIterator" && isReturnedFromFunction fn vid then []
    else if hasDeferredClose fn vid then []
    else
      let pos := underlyingPos instr vpos
      if hasNolintDirective pass pos then []
      else [⟨pos, typeName ++ ".Close() must be deferred"⟩]

/-- Go `checkFunc`: skip the whole function when its position lies in a
generated or file-level-suppressed file, otherwise scan every instruction
of every block.  (The nil-function guard of the source is vacuous here:
functions are always present.) -/
def checkFunc (pass : Pass) (fn : Function) (reg : Registry) : List Diagnostic :=
  if isGeneratedFile pass fn.pos then []
  else ((allInstrs fn).map (checkInstr pass fn reg)).flatten

/-- Registry construction of Go `deferOnlyAnalyzer`: the first package with
the Spanner import path contributes the three registered names (the loop
breaks after the first match). -/
def buildSpannerTypes (prog : Program) : Registry :=
  match prog.allPackages.find? (fun pkg => pkg.path == "cloud.google.com/go/spanner") with
  | some pkg =>
    registerType pkg "RowIterator"
      (registerType pkg "BatchReadOnlyTransaction"
        (registerType pkg "ReadOnlyTransaction" []))
  | none => []

/-- Go `deferOnlyAnalyzer`: build the registry; when it is empty return at
once with no diagnostics and a nil error, otherwise scan every source
function.  The error component is nil on every path of the source. -/
def deferOnlyAnalyzer (pass : Pass) (pssa : SSAResult) : AnalyzerResult :=
  let spannerTypes := buildSpannerTypes pssa.pkgProg
  if spannerTypes.isEmpty then ⟨[], none⟩
  else ⟨(pssa.srcFuncs.map (fun fn => checkFunc pass fn spannerTypes)).flatten, none⟩

/-- Cleanup method of each registered resource descriptor, following the
descriptor table of the spec: the two transaction-like types require a
`Close`-style cleanup, the iterator-like type a `Stop`-style cleanup. -/
def cleanupMethod : String → String
  | "RowIterator" => "Stop"
  | _ => "Close"

/-- Coverage as the claim words it (for comparison with the
`hasDeferredClose` of the source): the value is a direct operand of a defer construct, or
some use site is a method call whose method name equals the cleanup
method of the descriptor — in either call mode — and the own use sites of that call
include a defer construct. -/
def claimCoverage (fn : Function) (v : ValueId) (typeName : String) : Bool :=
  (referrers fn v).any isDeferB ||
  (referrers fn v).any fun ref =>
    match ref with
    | .call cid _ _ common =>
      (common.methodName == some (cleanupMethod typeName) ||
       common.valueName == some (cleanupMethod typeName)) &&
      (referrers fn cid).any isDeferB
    | _ => false

/-- Coverage as the source actually decides it, written as a predicate:
some use site is a defer construct, or some use site is an invoke-mode
method call named `Close` or `Stop` — regardless of the own descriptor
of the candidate — whose own use sites include a defer construct. -/
def coverageSpecAmended (fn : Function) (v : ValueId) : Prop :=
  (∃ i ∈ referrers fn v, ∃ dc, i = Instr.deferC dc) ∨
  (∃ i ∈ referrers fn v, ∃ cid cpos cty common,
    i = Instr.call cid cpos cty common ∧
    (common.methodName = some "Close" ∨ common.methodName = some "Stop") ∧
    ∃ j ∈ referrers fn cid, ∃ dc, j = Instr.deferC dc)

/-- Positional suppression as a predicate: some parsed file of the same
token file has a comment group on the line of the position or the line before
whose text contains the targeted token, the all-tools token, or a bare
token with no colon in the text. -/
def positionalNolintSpec (pass : Pass) (pos : Pos) : Prop :=
  ∃ fid, pass.fileOf pos = some fid ∧
    ∃ f ∈ pass.files, pass.fileOf f.pos = some fid ∧
      ∃ cg ∈ f.comments,
        (pass.lineOf fid cg.pos = pass.lineOf fid pos ∨
         pass.lineOf fid cg.pos = pass.lineOf fid pos - 1) ∧
        ∃ c ∈ cg.list,
          (strContains c.text "nolint:spannerclosecheck" = true ∨
           strContains c.text "nolint:all" = true ∨
           (strContains c.text "nolint" = true ∧ strContains c.text ":" = false))

lemma mem_referrers_iff (fn : Function) (v : ValueId) (i : Instr) :
    i ∈ referrers fn v ↔ i ∈ allInstrs fn ∧ v ∈ i.operands := by
  simp [referrers, List.mem_filter]

lemma isDeferB_eq_true_iff (i : Instr) : isDeferB i = true ↔ ∃ dc, i = Instr.deferC dc := by
  cases i <;> simp [isDeferB]

lemma deferCoverRef_eq_true_iff (fn : Function) (i : Instr) :
    deferCoverRef fn i = true ↔
      ((∃ dc, i = Instr.deferC dc) ∨
       (∃ cid cpos cty common,
          i = Instr.call cid cpos cty common ∧
          (common.methodName = some "Close" ∨ common.methodName = some "Stop") ∧
          (referrers fn cid).any isDeferB = true)) := by
  cases i with
  | deferC dc => simp [deferCoverRef]
  | call cid cpos cty common =>
    cases hm : common.methodName with
    | none =>
      simp only [deferCoverRef, hm, Bool.false_eq_true, false_iff]
      rintro (⟨dc, hdc⟩ | ⟨cid2, cpos2, cty2, common2, heq, hname, -⟩)
      · exact absurd hdc (by simp)
      · obtain ⟨-, -, -, rfl⟩ :
          cid = cid2 ∧ cpos = cpos2 ∧ cty = cty2 ∧ common = common2 := by
          injection heq with h1 h2 h3 h4; exact ⟨h1, h2, h3, h4⟩
        rcases hname with h | h <;> rw [hm] at h <;> exact Option.noConfusion h
    | some m =>
      simp only [deferCoverRef, hm, Bool.and_eq_true, Bool.or_eq_true, beq_iff_eq]
      constructor
      · rintro ⟨hname, hany⟩
        refine Or.inr ⟨cid, cpos, cty, common, rfl, ?_, hany⟩
        rcases hname with h | h
        · exact Or.inl (by rw [hm, h])
        · exact Or.inr (by rw [hm, h])
      · rintro (⟨dc, hdc⟩ | ⟨cid2, cpos2, cty2, common2, heq, hname, hany⟩)
        · exact absurd hdc (by simp)
        · obtain ⟨rfl, rfl, rfl, rfl⟩ :
            cid = cid2 ∧ cpos = cpos2 ∧ cty = cty2 ∧ common = common2 := by
            injection heq with h1 h2 h3 h4; exact ⟨h1, h2, h3, h4⟩
          refine ⟨?_, hany⟩
          rcases hname with h | h
          · rw [hm] at h; exact Or.inl (Option.some.inj h)
          · rw [hm] at h; exact Or.inr (Option.some.inj h)
  | extract _ _ _ _ => simp [deferCoverRef]
  | opaqueVal _ _ _ _ => simp [deferCoverRef]
  | returnInstr _ => simp [deferCoverRef]
  | opaqueInstr _ => simp [deferCoverRef]

lemma hasDeferredClose_iff (fn : Function) (v : ValueId) :
    hasDeferredClose fn v = true ↔ coverageSpecAmended fn v := by
  unfold hasDeferredClose coverageSpecAmended
  rw [List.any_eq_true]
  constructor
  · rintro ⟨i, hi, hfi⟩
    rcases (deferCoverRef_eq_true_iff fn i).mp hfi with
      ⟨dc, rfl⟩ | ⟨cid, cpos, cty, common, rfl, hname, hany⟩
    · exact Or.inl ⟨Instr.deferC dc, hi, dc, rfl⟩
    · rcases List.any_eq_true.mp hany with ⟨j, hj, pj⟩
      exact Or.inr ⟨Instr.call cid cpos cty common, hi, cid, cpos, cty, common, rfl,
        hname, j, hj, (isDeferB_eq_true_iff j).mp pj⟩
  · rintro (⟨i, hi, dc, rfl⟩ | ⟨i, hi, cid, cpos, cty, common, rfl, hname, j, hj, dc, rfl⟩)
    · exact ⟨Instr.deferC dc, hi, (deferCoverRef_eq_true_iff _ _).mpr (Or.inl ⟨dc, rfl⟩)⟩
    · refine ⟨Instr.call cid cpos cty common, hi,
        (deferCoverRef_eq_true_iff _ _).mpr (Or.inr
          ⟨cid, cpos, cty, common, rfl, hname, ?_⟩)⟩
      exact List.any_eq_true.mpr ⟨Instr.deferC dc, hj, rfl⟩

lemma hasNolintDirective_iff (pass : Pass) (pos : Pos) :
    hasNolintDirective pass pos = true ↔ positionalNolintSpec pass pos := by
  unfold hasNolintDirective positionalNolintSpec nolintText
  cases hf : pass.fileOf pos with
  | none =>
    simp only [Bool.false_eq_true, false_iff]
    rintro ⟨fid, hfid, -⟩
    exact Option.noConfusion hfid
  | some fid =>
    simp only [List.any_eq_true, Bool.and_eq_true, Bool.or_eq_true, beq_iff_eq,
      Bool.not_eq_true']
    constructor
    · rintro ⟨f, hfm, hfp, cg, hcg, hline, c, hc, htok⟩
      exact ⟨fid, rfl, f, hfm, hfp, cg, hcg, hline, c, hc, by tauto⟩
    · rintro ⟨fid2, hfid2, f, hfm, hfp, cg, hcg, hline, c, hc, htok⟩
      obtain rfl : fid = fid2 := Option.some.inj hfid2
      exact ⟨f, hfm, hfp, cg, hcg, hline, c, hc, by tauto⟩

lemma fileLevelScanGroups_true (pass : Pass) (fid : Nat) (l : List CommentGroup)
    (cg : CommentGroup)
    (hsorted : List.Pairwise (fun a b => pass.lineOf fid a.pos ≤ pass.lineOf fid b.pos) l)
    (hm : cg ∈ l) (h10 : pass.lineOf fid cg.pos ≤ 10)
    (hmatch : cg.list.any (fun c =>
      strContains c.text "nolint:spannerclosecheck" ||
      strContains c.text "nolint:all") = true) :
    fileLevelScanGroups pass fid l = true := by
  induction l with
  | nil => cases hm
  | cons g rest ih =>
    rcases List.mem_cons.mp hm with rfl | hmem
    · rw [fileLevelScanGroups, if_neg (by omega), if_pos hmatch]
    · have hle : pass.lineOf fid g.pos ≤ pass.lineOf fid cg.pos :=
        (List.pairwise_cons.mp hsorted).1 cg hmem
      rw [fileLevelScanGroups, if_neg (by omega)]
      by_cases hg : (g.list.any (fun c =>
          strContains c.text "nolint:spannerclosecheck" ||
          strContains c.text "nolint:all")) = true
      · rw [if_pos hg]
      · rw [if_neg hg]
        exact ih (List.pairwise_cons.mp hsorted).2 hmem

/-- Shared pass with no file metadata at all: every `Fset.File` lookup
yields nil. -/
def passNone : Pass := ⟨fun _ => none, fun _ => "", fun _ _ => 0, []⟩

/-- Registry with the three Spanner resource types, as
`deferOnlyAnalyzer` builds it when the Spanner package is imported. -/
def reg0 : Registry :=
  [(0, "ReadOnlyTransaction"), (1, "BatchReadOnlyTransaction"), (2, "RowIterator")]

/-- The type `*spanner.ReadOnlyTransaction`. -/
def tyROT : GoType := GoType.pointer (GoType.named 0)

/-- The type `*spanner.BatchReadOnlyTransaction`. -/
def tyBROT : GoType := GoType.pointer (GoType.named 1)

/-- The type `*spanner.RowIterator`. -/
def tyRI : GoType := GoType.pointer (GoType.named 2)

/-- The Spanner package with its three resource type declarations. -/
def spannerPkg : SsaPackage :=
  ⟨"cloud.google.com/go/spanner",
   [("ReadOnlyTransaction", GoType.named 0),
    ("BatchReadOnlyTransaction", GoType.named 1),
    ("RowIterator", GoType.named 2)]⟩

/-- Claim C3: a transaction-like candidate (ReadOnlyTransaction) whose producing
operation is a call to the auto-releasing accessor `Single` — invoked as an
interface method or as a concrete method — is never reported, regardless of
any defer in the function. -/
theorem c3_single_exemption (pass : Pass) (fn : Function) (reg : Registry)
    (cid : ValueId) (cpos : Pos) (ty : GoType) (common : CallCommon)
    (ht : getSpannerType ty reg = "ReadOnlyTransaction")
    (hs : common.methodName = some "Single" ∨ common.valueName = some "Single") :
    checkInstr pass fn reg (Instr.call cid cpos ty common) = [] := by
  have hsingle : isFromSingle (Instr.call cid cpos ty common) = true := by
    rcases hs with h | h
    · simp [isFromSingle, h]
    · simp [isFromSingle, h]
  simp [checkInstr, Instr.valueInfo, ht, hsingle]

/-- Witness for C3 at a concrete interface-mode `Single()` call with no
defer anywhere in the function. -/
theorem c3_single_exemption_witness :
    getSpannerType tyROT reg0 = "ReadOnlyTransaction" ∧
    checkInstr passNone ⟨5, [[Instr.call 0 12 tyROT ⟨some "Single", none, [3]⟩]]⟩
      reg0 (Instr.call 0 12 tyROT ⟨some "Single", none, [3]⟩) = [] :=
  ⟨by decide,
   c3_single_exemption passNone ⟨5, [[Instr.call 0 12 tyROT ⟨some "Single", none, [3]⟩]]⟩
     reg0 0 12 tyROT ⟨some "Single", none, [3]⟩ (by decide) (Or.inl rfl)⟩

/-- Claim C4: an iterator-like candidate (RowIterator) that appears directly
among the results of a return instruction of the enclosing function is
never reported in that function, whether or not its cleanup is deferred. -/
theorem c4_returned_iterator_exemption (pass : Pass) (fn : Function) (reg : Registry)
    (instr : Instr) (vid : ValueId) (vpos : Pos) (ty : GoType)
    (hv : instr.valueInfo = some (vid, vpos, ty))
    (ht : getSpannerType ty reg = "RowIterator")
    (hr : ∃ rs, Instr.returnInstr rs ∈ allInstrs fn ∧ vid ∈ rs) :
    checkInstr pass fn reg instr = [] := by
  obtain ⟨rs, hmem, hin⟩ := hr
  have hret : isReturnedFromFunction fn vid = true := by
    unfold isReturnedFromFunction
    refine List.any_eq_true.mpr ⟨Instr.returnInstr rs, ?_, ?_⟩
    · exact (mem_referrers_iff fn vid _).mpr ⟨hmem, by simpa [Instr.operands] using hin⟩
    · simp [hin]
  simp [checkInstr, hv, ht, hret]

/-- Witness for C4 at a concrete function returning the iterator without
deferring its cleanup. -/
theorem c4_returned_iterator_exemption_witness :
    getSpannerType tyRI reg0 = "RowIterator" ∧
    checkInstr passNone ⟨5, [[Instr.call 0 12 tyRI ⟨none, some "Query", []⟩,
        Instr.returnInstr [0]]]⟩ reg0 (Instr.call 0 12 tyRI ⟨none, some "Query", []⟩) = [] :=
  ⟨by decide,
   c4_returned_iterator_exemption passNone
     ⟨5, [[Instr.call 0 12 tyRI ⟨none, some "Query", []⟩, Instr.returnInstr [0]]]⟩
     reg0 (Instr.call 0 12 tyRI ⟨none, some "Query", []⟩) 0 12 tyRI (by decide) (by decide)
     ⟨[0], by decide, by decide⟩⟩

/-- Claim C10: any use site that is a defer instruction — also a deferred call
unrelated to the registered cleanup method that merely takes the value as
an argument — makes the candidate covered, and no diagnostic is emitted. -/
theorem c10_any_defer_covers (pass : Pass) (fn : Function) (reg : Registry)
    (instr : Instr) (vid : ValueId) (vpos : Pos) (ty : GoType) (common : CallCommon)
    (hv : instr.valueInfo = some (vid, vpos, ty))
    (hd : Instr.deferC common ∈ allInstrs fn)
    (hop : vid ∈ common.operands) :
    hasDeferredClose fn vid = true ∧ checkInstr pass fn reg instr = [] := by
  have hcov : hasDeferredClose fn vid = true := by
    unfold hasDeferredClose
    refine List.any_eq_true.mpr ⟨Instr.deferC common, ?_, rfl⟩
    exact (mem_referrers_iff fn vid _).mpr ⟨hd, by simpa [Instr.operands] using hop⟩
  refine ⟨hcov, ?_⟩
  simp only [checkInstr, hv]
  split_ifs <;> simp_all

/-- Witness for C10 at a concrete candidate whose only defer-related use is
`defer log.Println(txn)` — a deferred call that is not the cleanup
method. -/
theorem c10_any_defer_covers_witness :
    (Instr.deferC ⟨none, some "Println", [0]⟩ ∈
      allInstrs ⟨5, [[Instr.call 0 12 tyROT ⟨none, some "ReadOnlyTransaction", []⟩,
        Instr.deferC ⟨none, some "Println", [0]⟩]]⟩) ∧
    hasDeferredClose ⟨5, [[Instr.call 0 12 tyROT ⟨none, some "ReadOnlyTransaction", []⟩,
        Instr.deferC ⟨none, some "Println", [0]⟩]]⟩ 0 = true ∧
    checkInstr passNone ⟨5, [[Instr.call 0 12 tyROT ⟨none, some "ReadOnlyTransaction", []⟩,
        Instr.deferC ⟨none, some "Println", [0]⟩]]⟩ reg0
      (Instr.call 0 12 tyROT ⟨none, some "ReadOnlyTransaction", []⟩) = [] := by
  refine ⟨by decide, ?_, ?_⟩
  · exact (c10_any_defer_covers passNone
      ⟨5, [[Instr.call 0 12 tyROT ⟨none, some "ReadOnlyTransaction", []⟩,
        Instr.deferC ⟨none, some "Println", [0]⟩]]⟩ reg0
      (Instr.call 0 12 tyROT ⟨none, some "ReadOnlyTransaction", []⟩) 0 12 tyROT
      ⟨none, some "Println", [0]⟩ (by decide) (by decide) (by decide)).1
  · exact (c10_any_defer_covers passNone
      ⟨5, [[Instr.call 0 12 tyROT ⟨none, some "ReadOnlyTransaction", []⟩,
        Instr.deferC ⟨none, some "Println", [0]⟩]]⟩ reg0
      (Instr.call 0 12 tyROT ⟨none, some "ReadOnlyTransaction", []⟩) 0 12 tyROT
      ⟨none, some "Println", [0]⟩ (by decide) (by decide) (by decide)).2

/-- Claim C5: when the registry is empty after attempting registration of the
whole fixed set (the Spanner library is not imported), the analyzer is a
no-op: empty diagnostics, no error, independent of the source functions. -/
theorem c5_empty_registry_noop (pass : Pass) (prog : Program) (funcs : List Function)
    (h : buildSpannerTypes prog = []) :
    deferOnlyAnalyzer pass ⟨prog, funcs⟩ = ⟨[], none⟩ := by
  simp [deferOnlyAnalyzer, h]

/-- Witness for C5 at a concrete unit that does not import the Spanner
package yet contains a function that would otherwise be reported. -/
theorem c5_empty_registry_noop_witness :
    buildSpannerTypes ⟨[⟨"example.com/app", [("Client", GoType.named 7)]⟩]⟩ = [] ∧
    deferOnlyAnalyzer passNone
      ⟨⟨[⟨"example.com/app", [("Client", GoType.named 7)]⟩]⟩,
       [⟨5, [[Instr.call 0 12 tyROT ⟨none, some "ReadOnlyTransaction", []⟩]]⟩]⟩ =
      ⟨[], none⟩ :=
  ⟨by decide,
   c5_empty_registry_noop passNone ⟨[⟨"example.com/app", [("Client", GoType.named 7)]⟩]⟩
     [⟨5, [[Instr.call 0 12 tyROT ⟨none, some "ReadOnlyTransaction", []⟩]]⟩] (by decide)⟩

/-- Claim C6: an uncovered, non-exempt, non-suppressed candidate yields
exactly one diagnostic, positioned at the producing operation; when the
candidate is an extraction from a multi-result call, the position is that
of the underlying call. -/
theorem c6_one_diagnostic_at_producer (pass : Pass) (fn : Function) (reg : Registry)
    (instr : Instr) (vid : ValueId) (vpos : Pos) (ty : GoType) (t : String)
    (hv : instr.valueInfo = some (vid, vpos, ty))
    (ht : getSpannerType ty reg = t)
    (hne : (t == "") = false)
    (hx1 : (t == "ReadOnlyTransaction" && isFromSingle instr) = false)
    (hx2 : (t == "RowIterator" && isReturnedFromFunction fn vid) = false)
    (hcov : hasDeferredClose fn vid = false)
    (hnl : hasNolintDirective pass (underlyingPos instr vpos) = false) :
    checkInstr pass fn reg instr =
      [⟨underlyingPos instr vpos, t ++ ".Close() must be deferred"⟩] ∧
    (∀ tid tpos, instr = Instr.extract vid vpos ty (some (tid, tpos)) →
      underlyingPos instr vpos = tpos) := by
  constructor
  · simp [checkInstr, hv, ht, hne, hx1, hx2, hcov, hnl]
  · rintro tid tpos rfl
    rfl

/-- Witness for C6 at a concrete candidate extracted from a
`(resource, error)` tuple call, with no defer and no suppression. -/
theorem c6_one_diagnostic_at_producer_witness :
    hasDeferredClose ⟨30, [[Instr.call 0 35 (GoType.basic "tuple")
        ⟨none, some "BatchReadOnlyTransaction", []⟩,
      Instr.extract 1 40 tyBROT (some (0, 35))]]⟩ 1 = false ∧
    (checkInstr passNone ⟨30, [[Instr.call 0 35 (GoType.basic "tuple")
        ⟨none, some "BatchReadOnlyTransaction", []⟩,
      Instr.extract 1 40 tyBROT (some (0, 35))]]⟩ reg0
      (Instr.extract 1 40 tyBROT (some (0, 35))) =
      [⟨underlyingPos (Instr.extract 1 40 tyBROT (some (0, 35))) 40,
        "BatchReadOnlyTransaction" ++ ".Close() must be deferred"⟩] ∧
    (∀ tid tpos, Instr.extract 1 40 tyBROT (some (0, 35)) =
        Instr.extract 1 40 tyBROT (some (tid, tpos)) →
      underlyingPos (Instr.extract 1 40 tyBROT (some (0, 35))) 40 = tpos)) :=
  ⟨by decide,
   c6_one_diagnostic_at_producer passNone
     ⟨30, [[Instr.call 0 35 (GoType.basic "tuple")
        ⟨none, some "BatchReadOnlyTransaction", []⟩,
       Instr.extract 1 40 tyBROT (some (0, 35))]]⟩ reg0
     (Instr.extract 1 40 tyBROT (some (0, 35))) 1 40 tyBROT "BatchReadOnlyTransaction"
     (by decide) (by decide) (by decide) (by decide) (by decide) (by decide) (by decide)⟩

/-- Function of the counterexample to C1: a RowIterator candidate (value 0)
whose only use is an invoke-mode call named `Close` (value 1) — not the
iterator cleanup method `Stop` — and whose result is in turn an operand
of a deferred call. -/
def c1Fn : Function :=
  ⟨5, [[Instr.call 0 10 tyRI ⟨none, some "Query", []⟩,
        Instr.call 1 20 (GoType.basic "error") ⟨some "Close", some "i", [0]⟩,
        Instr.deferC ⟨none, some "Println", [1]⟩]]⟩

/-- Counterexample to C1 as stated: the candidate is not exempt and not
suppressed, no use site is a call to the cleanup method of its descriptor
(`Stop`), yet the analyzer treats it as covered — a deferred invoke-mode
`Close` call suffices — and emits no diagnostic, while the claim demands
one. -/
theorem c1_counterexample :
    getSpannerType tyRI reg0 = "RowIterator" ∧
    isFromSingle (Instr.call 0 10 tyRI ⟨none, some "Query", []⟩) = false ∧
    isReturnedFromFunction c1Fn 0 = false ∧
    hasNolintDirective passNone 10 = false ∧
    claimCoverage c1Fn 0 "RowIterator" = false ∧
    hasDeferredClose c1Fn 0 = true ∧
    checkInstr passNone c1Fn reg0 (Instr.call 0 10 tyRI ⟨none, some "Query", []⟩) = [] := by
  decide

/-- Claim C1 as amended: for a non-exempt, non-suppressed candidate the
analyzer decides covered iff some use site is a defer construct, or some
use site is an invoke-mode method call named `Close` or `Stop` — not
necessarily the own cleanup method of the candidate — whose own use sites
include a defer construct; an uncovered candidate receives exactly one
diagnostic. -/
theorem c1_coverage_decision (pass : Pass) (fn : Function) (reg : Registry)
    (instr : Instr) (vid : ValueId) (vpos : Pos) (ty : GoType) (t : String)
    (hv : instr.valueInfo = some (vid, vpos, ty))
    (ht : getSpannerType ty reg = t)
    (hne : (t == "") = false)
    (hx1 : (t == "ReadOnlyTransaction" && isFromSingle instr) = false)
    (hx2 : (t == "RowIterator" && isReturnedFromFunction fn vid) = false)
    (hnl : hasNolintDirective pass (underlyingPos instr vpos) = false) :
    (hasDeferredClose fn vid = true ↔ coverageSpecAmended fn vid) ∧
    (hasDeferredClose fn vid = false →
      checkInstr pass fn reg instr =
        [⟨underlyingPos instr vpos, t ++ ".Close() must be deferred"⟩]) :=
  ⟨hasDeferredClose_iff fn vid, fun hcov => by
    simp [checkInstr, hv, ht, hne, hx1, hx2, hcov, hnl]⟩

/-- Witness for the amended C1 at the concrete input of the
counterexample. -/
theorem c1_coverage_decision_witness :
    getSpannerType tyRI reg0 = "RowIterator" ∧
    ((hasDeferredClose c1Fn 0 = true ↔ coverageSpecAmended c1Fn 0) ∧
     (hasDeferredClose c1Fn 0 = false →
       checkInstr passNone c1Fn reg0 (Instr.call 0 10 tyRI ⟨none, some "Query", []⟩) =
         [⟨underlyingPos (Instr.call 0 10 tyRI ⟨none, some "Query", []⟩) 10,
           "RowIterator" ++ ".Close() must be deferred"⟩])) :=
  ⟨by decide,
   c1_coverage_decision passNone c1Fn reg0
     (Instr.call 0 10 tyRI ⟨none, some "Query", []⟩) 0 10 tyRI "RowIterator"
     (by decide) (by decide) (by decide) (by decide) (by decide) (by decide)⟩

/-- Program for the evaluation of C2: a unit importing the Spanner package. -/
def prog2 : Program := ⟨[spannerPkg]⟩

/-- Function for the evaluation of C2: an uncovered RowIterator candidate. -/
def c2Fn : Function := ⟨90, [[Instr.call 0 100 tyRI ⟨none, some "Query", []⟩]]⟩

/-- Claim C2 evaluated on the code: for an uncovered iterator-like
candidate the analyzer emits `RowIterator.Close() must be deferred` — the
message hard-codes `Close` — whereas the registered cleanup method for
RowIterator is `Stop`, so the template of the spec would give
`RowIterator.Stop() must be deferred`. -/
theorem c2_hardcoded_close_message :
    deferOnlyAnalyzer passNone ⟨prog2, [c2Fn]⟩ =
      ⟨[⟨100, "RowIterator.Close() must be deferred"⟩], none⟩ ∧
    cleanupMethod "RowIterator" = "Stop" ∧
    "RowIterator" ++ "." ++ cleanupMethod "RowIterator" ++ "() must be deferred" =
      "RowIterator.Stop() must be deferred" := by
  refine ⟨by decide, rfl, by decide⟩

/-- Pass of the counterexample to C7: one file (id 0, ten positions per line)
with a single bare `//nolint` comment on line 5. -/
def pass7 : Pass :=
  ⟨fun _ => some 0, fun _ => "a.go", fun _ p => p / 10,
   [⟨1, [⟨50, [⟨"//nolint"⟩]⟩]⟩]⟩

/-- The same pass with the comment removed. -/
def pass7b : Pass :=
  ⟨fun _ => some 0, fun _ => "a.go", fun _ p => p / 10, [⟨1, []⟩]⟩

/-- Function of the counterexample to C7: two uncovered candidates whose
reported positions (51 and 55) lie on the same physical line 5. -/
def c7Fn : Function :=
  ⟨10, [[Instr.call 0 51 tyROT ⟨none, some "ReadOnlyTransaction", []⟩,
         Instr.call 1 55 tyRI ⟨none, some "Query", [0]⟩]]⟩

/-- Counterexample to C7 as stated: without the comment the function
yields two diagnostics at two distinct positions; the single same-line
comment suppresses both of them, not only the one it targets. -/
theorem c7_counterexample :
    hasNolintDirective pass7 51 = true ∧
    hasNolintDirective pass7 55 = true ∧
    (51 : Pos) ≠ 55 ∧
    checkFunc pass7b c7Fn reg0 =
      [⟨51, "ReadOnlyTransaction.Close() must be deferred"⟩,
       ⟨55, "RowIterator.Close() must be deferred"⟩] ∧
    checkFunc pass7 c7Fn reg0 = [] := by
  decide

/-- Claim C7 as amended: for an uncovered, non-exempt candidate, the
diagnostic is withheld exactly when some comment group of the same file
sits on the line of the reported position or the line immediately before and
carries a targeted token, an all-tools token, or a bare token with no
colon in the comment text; so a comment suppresses every diagnostic
reported on its own line or the following line, and none on other
lines. -/
theorem c7_positional_suppression (pass : Pass) (fn : Function) (reg : Registry)
    (instr : Instr) (vid : ValueId) (vpos : Pos) (ty : GoType) (t : String)
    (hv : instr.valueInfo = some (vid, vpos, ty))
    (ht : getSpannerType ty reg = t)
    (hne : (t == "") = false)
    (hx1 : (t == "ReadOnlyTransaction" && isFromSingle instr) = false)
    (hx2 : (t == "RowIterator" && isReturnedFromFunction fn vid) = false)
    (hcov : hasDeferredClose fn vid = false) :
    checkInstr pass fn reg instr = [] ↔
      positionalNolintSpec pass (underlyingPos instr vpos) := by
  cases hb : hasNolintDirective pass (underlyingPos instr vpos) with
  | false =>
    have hrep : checkInstr pass fn reg instr =
        [⟨underlyingPos instr vpos, t ++ ".Close() must be deferred"⟩] := by
      simp [checkInstr, hv, ht, hne, hx1, hx2, hcov, hb]
    constructor
    · intro hnil
      rw [hrep] at hnil
      exact absurd hnil (by simp)
    · intro hspec
      have := (hasNolintDirective_iff pass (underlyingPos instr vpos)).mpr hspec
      rw [hb] at this
      exact absurd this (by simp)
  | true =>
    have hnil : checkInstr pass fn reg instr = [] := by
      simp [checkInstr, hv, ht, hne, hx1, hx2, hcov, hb]
    exact ⟨fun _ => (hasNolintDirective_iff pass _).mp hb, fun _ => hnil⟩

/-- Witness for the amended C7 at a concrete suppressed candidate. -/
theorem c7_positional_suppression_witness :
    hasDeferredClose c7Fn 0 = false ∧
    (checkInstr pass7 c7Fn reg0
        (Instr.call 0 51 tyROT ⟨none, some "ReadOnlyTransaction", []⟩) = [] ↔
      positionalNolintSpec pass7
        (underlyingPos (Instr.call 0 51 tyROT ⟨none, some "ReadOnlyTransaction", []⟩) 51)) :=
  ⟨by decide,
   c7_positional_suppression pass7 c7Fn reg0
     (Instr.call 0 51 tyROT ⟨none, some "ReadOnlyTransaction", []⟩) 0 51 tyROT
     "ReadOnlyTransaction" (by decide) (by decide) (by decide) (by decide) (by decide)
     (by decide)⟩

/-- Claim C8: a comment group within the first ten lines of a file whose
text carries the targeted or all-tools token makes every function
positioned in that file skip before any candidate is evaluated; the
comment groups are taken in file order (positions nondecreasing, as
`go/ast` guarantees). -/
theorem c8_file_level_suppression (pass : Pass) (fn : Function) (reg : Registry)
    (fid : Nat) (f : AstFile) (cg : CommentGroup) (c : Comment)
    (hf : pass.fileOf fn.pos = some fid)
    (hfm : f ∈ pass.files) (hfp : pass.fileOf f.pos = some fid)
    (hsorted : List.Pairwise
      (fun a b => pass.lineOf fid a.pos ≤ pass.lineOf fid b.pos) f.comments)
    (hcg : cg ∈ f.comments) (h10 : pass.lineOf fid cg.pos ≤ 10)
    (hc : c ∈ cg.list)
    (htok : strContains c.text "nolint:spannerclosecheck" = true ∨
            strContains c.text "nolint:all" = true) :
    checkFunc pass fn reg = [] := by
  have hmatch : cg.list.any (fun c2 =>
      strContains c2.text "nolint:spannerclosecheck" ||
      strContains c2.text "nolint:all") = true :=
    List.any_eq_true.mpr ⟨c, hc, by rcases htok with h | h <;> simp [h]⟩
  have hscan : fileLevelScanGroups pass fid f.comments = true :=
    fileLevelScanGroups_true pass fid f.comments cg hsorted hcg h10 hmatch
  have hfile : hasFileLevelNolint pass fn.pos = true := by
    simp only [hasFileLevelNolint, hf]
    exact List.any_eq_true.mpr ⟨f, hfm, by simp [hfp, hscan]⟩
  have hgen : isGeneratedFile pass fn.pos = true := by
    simp [isGeneratedFile, hf, hfile]
  simp [checkFunc, hgen]

/-- Pass for the witness of C8: a targeted suppression comment on line 2 of the
file that also holds the scanned function. -/
def pass8 : Pass :=
  ⟨fun _ => some 0, fun _ => "b.go", fun _ p => p / 10,
   [⟨1, [⟨20, [⟨"//nolint:spannerclosecheck"⟩]⟩]⟩]⟩

/-- A function with one uncovered ReadOnlyTransaction candidate. -/
def plainFn : Function :=
  ⟨45, [[Instr.call 0 50 tyROT ⟨none, some "ReadOnlyTransaction", []⟩]]⟩

/-- Witness for C8: with the file-level comment present, the function that
would otherwise produce a diagnostic produces none. -/
theorem c8_file_level_suppression_witness :
    pass8.fileOf plainFn.pos = some 0 ∧
    pass8.lineOf 0 (20 : Pos) ≤ 10 ∧
    strContains "//nolint:spannerclosecheck" "nolint:spannerclosecheck" = true ∧
    checkFunc pass8 plainFn reg0 = [] :=
  ⟨by decide, by decide, by decide,
   c8_file_level_suppression pass8 plainFn reg0 0
     ⟨1, [⟨20, [⟨"//nolint:spannerclosecheck"⟩]⟩]⟩
     ⟨20, [⟨"//nolint:spannerclosecheck"⟩]⟩ ⟨"//nolint:spannerclosecheck"⟩
     (by decide) (by decide) (by decide) (by decide) (by decide) (by decide)
     (by decide) (Or.inl (by decide))⟩

/-- Counterexample to C9 as stated: with the file lookup yielding nothing
for the position of the candidate, the operation is not skipped — the nolint
check answers false and the diagnostic is still produced. -/
theorem c9_counterexample :
    passNone.fileOf 50 = none ∧
    hasNolintDirective passNone 50 = false ∧
    checkFunc passNone plainFn reg0 =
      [⟨50, "ReadOnlyTransaction.Close() must be deferred"⟩] := by
  decide

/-- Claim C9 as amended: when the position-to-file lookup yields nothing,
the metadata-dependent checks answer negatively — the function is not
treated as generated or suppressed — and the scan proceeds over every
instruction without fatal failure; diagnostics are still produced. -/
theorem c9_missing_metadata (pass : Pass) (fn : Function) (reg : Registry) (p : Pos)
    (hfn : pass.fileOf fn.pos = none) (hp : pass.fileOf p = none) :
    isGeneratedFile pass fn.pos = false ∧
    hasNolintDirective pass p = false ∧
    hasFileLevelNolint pass p = false ∧
    checkFunc pass fn reg = ((allInstrs fn).map (checkInstr pass fn reg)).flatten := by
  refine ⟨?_, ?_, ?_, ?_⟩
  · simp [isGeneratedFile, hfn]
  · simp [hasNolintDirective, hp]
  · simp [hasFileLevelNolint, hp]
  · simp [checkFunc, isGeneratedFile, hfn]

/-- Witness for the amended C9 at the concrete metadata-free pass. -/
theorem c9_missing_metadata_witness :
    passNone.fileOf plainFn.pos = none ∧
    (isGeneratedFile passNone plainFn.pos = false ∧
     hasNolintDirective passNone 50 = false ∧
     hasFileLevelNolint passNone 50 = false ∧
     checkFunc passNone plainFn reg0 =
       ((allInstrs plainFn).map (checkInstr passNone plainFn reg0)).flatten) :=
  ⟨by decide,
   c9_missing_metadata passNone plainFn reg0 50 (by decide) (by decide)⟩
